import Mathlib

/-!
Shallow embedding of `blockchain/blockchain.py` (class `Blockchain` and the
`mine` flow) from the repository `TakudzwaChoto/Blockchain-`.

Modelling conventions:
* Python exceptions are modelled with `Except PyError`; `binascii.Error` is a
  subclass of `ValueError`, so both are mapped to `PyError.valueError`.
* The SHA-256 hex digest (`hashlib.new('sha256') ... hexdigest()`) is an
  external library primitive; it is passed in as an explicit function
  `H : String → String` from the serialized input to the hex digest.  All
  serialization feeding `H` is embedded concretely, mirroring Python
  `str`/`repr` and `json.dumps(..., sort_keys=True)`.
* RSA key import and PKCS#1 v1.5 verification (`Crypto.PublicKey.RSA`,
  `Crypto.Signature.PKCS1_v1_5`) are external primitives, passed in as the
  record `RSA`: `importKeyOk` tells whether `RSA.importKey` succeeds on the
  given key bytes, `verifyOk` whether `verifier.verify` accepts the digest of
  the serialized transaction against the signature bytes.
* `time()` is passed in as an opaque integer timestamp.
* The unbounded `while` loop of `proof_of_work` is given explicit fuel and
  returns `none` when the fuel runs out; the loop body is unchanged.
* `requests.get` is modelled by an explicit `fetch` function per node, and the
  arbitrary iteration order of the Python `set` of nodes by an explicit list.
-/

namespace Blockchain

/-- Python exceptions that the embedded code can raise.  `valueError` covers
`ValueError` and its subclass `binascii.Error`. -/
inductive PyError where
  | valueError
  | typeError
  | indexError
  | requestsException
  deriving DecidableEq, Repr

deriving instance DecidableEq for Except

/-- `amount` values flowing through the code: `MINING_REWARD` is the int `1`,
amounts submitted over HTTP arrive as form strings. -/
inductive Amount where
  | int (n : Int)
  | str (s : String)
  deriving DecidableEq, Repr

/-- The `OrderedDict` built by `submit_transaction`, with its fixed key order
`sender_public_key`, `recipient_public_key`, `amount`. -/
structure Transaction where
  sender_public_key : String
  recipient_public_key : String
  amount : Amount
  deriving DecidableEq, Repr

/-- The block dict built by `create_block`, with fields `block_number`,
`timestamp`, `transactions`, `nonce`, `previous_hash`. -/
structure Block where
  block_number : Nat
  timestamp : Nat
  transactions : List Transaction
  nonce : Nat
  previous_hash : String
  deriving DecidableEq, Repr

/-- Constant `MINING_SENDER` (line 20). -/
def MINING_SENDER : String := "The Blockchain"

/-- Constant `MINING_REWARD` (line 21). -/
def MINING_REWARD : Int := 1

/-- Constant `MINING_DIFFICULTY` (line 22). -/
def MINING_DIFFICULTY : Nat := 2

/-! ### Python `str`/`repr` and `json.dumps` serialization -/

/-- Python `repr` of an `amount` value: ints print bare, strings quoted.
`\x27` is the ASCII apostrophe. -/
def Amount.pyRepr : Amount → String
  | .int n => toString n
  | .str s => "\x27" ++ s ++ "\x27"

/-- Python `repr` of one transaction `OrderedDict`, as produced inside
`str(transactions)`. -/
def Transaction.pyRepr (t : Transaction) : String :=
  "OrderedDict([(\x27sender_public_key\x27, \x27" ++ t.sender_public_key ++
    "\x27), (\x27recipient_public_key\x27, \x27" ++ t.recipient_public_key ++
    "\x27), (\x27amount\x27, " ++ t.amount.pyRepr ++ ")])"

/-- Comma-separated interior of a Python list `repr`. -/
def pyReprListAux : List String → String
  | [] => ""
  | [s] => s
  | s :: rest => s ++ ", " ++ pyReprListAux rest

/-- Python `str` of the list of pending transactions (a list of
`OrderedDict`s). -/
def pyStrTxList (ts : List Transaction) : String :=
  "[" ++ pyReprListAux (ts.map Transaction.pyRepr) ++ "]"

/-- `json.dumps` of an amount value. -/
def Amount.jsonDump : Amount → String
  | .int n => toString n
  | .str s => "\"" ++ s ++ "\""

/-- `json.dumps(transaction, sort_keys=True)`: keys in sorted order
`amount`, `recipient_public_key`, `sender_public_key`.  `\x7b`/`\x7d` are the
ASCII braces. -/
def Transaction.jsonDump (t : Transaction) : String :=
  "\x7b\"amount\": " ++ t.amount.jsonDump ++
    ", \"recipient_public_key\": \"" ++ t.recipient_public_key ++
    "\", \"sender_public_key\": \"" ++ t.sender_public_key ++ "\"\x7d"

/-- `json.dumps(block, sort_keys=True)` (line 99): keys in sorted order
`block_number`, `nonce`, `previous_hash`, `timestamp`, `transactions`. -/
def Block.jsonDump (b : Block) : String :=
  "\x7b\"block_number\": " ++ toString b.block_number ++
    ", \"nonce\": " ++ toString b.nonce ++
    ", \"previous_hash\": \"" ++ b.previous_hash ++
    "\", \"timestamp\": " ++ toString b.timestamp ++
    ", \"transactions\": [" ++ pyReprListAux (b.transactions.map Transaction.jsonDump) ++
    "]\x7d"

/-! ### Hashing and proof of work -/

/-- `Blockchain.hash` (lines 97-102): SHA-256 hex digest of the canonical
JSON serialization of the block.  `H` is the SHA-256 hex-digest primitive. -/
def hash (H : String → String) (b : Block) : String :=
  H b.jsonDump

/-- `Blockchain.valid_proof` (lines 81-87): the hex digest of
`str(transactions) + str(last_hash) + str(nonce)` must start with
`difficulty` zero characters. -/
def valid_proof (H : String → String) (transactions : List Transaction)
    (last_hash : String) (nonce : Nat) (difficulty : Nat) : Bool :=
  let guess := pyStrTxList transactions ++ last_hash ++ toString nonce
  (H guess).take difficulty == String.mk (List.replicate difficulty '0')

/-- The `while` loop of `Blockchain.proof_of_work` (lines 92-94), with
explicit fuel: starting from nonce `start`, return the first nonce whose
proof is valid, or `none` when the fuel runs out.  The difficulty is a
parameter here; `proof_of_work` instantiates it with `MINING_DIFFICULTY`,
the default of `valid_proof`'s `difficulty` argument. -/
def pow_search (H : String → String) (transactions : List Transaction)
    (last_hash : String) (difficulty : Nat) : Nat → Nat → Option Nat
  | 0, _ => none
  | fuel + 1, n =>
    if valid_proof H transactions last_hash n difficulty then some n
    else pow_search H transactions last_hash difficulty fuel (n + 1)

/-! ### Node state and ledger operations -/

/-- The mutable state of a `Blockchain` instance (lines 27-31):
pending pool `transactions`, `chain`, peer `nodes` set, `node_id`. -/
structure BState where
  transactions : List Transaction
  chain : List Block
  nodes : Finset String
  node_id : String
  deriving DecidableEq

/-- `Blockchain.create_block` (lines 35-49): build the block from the
current pending pool, clear the pool, append the block.  `t` is the
`time()` reading. -/
def create_block (t : Nat) (nonce : Nat) (previous_hash : String)
    (s : BState) : Block × BState :=
  let block : Block :=
    { block_number := s.chain.length + 1
      timestamp := t
      transactions := s.transactions
      nonce := nonce
      previous_hash := previous_hash }
  (block, { s with transactions := [], chain := s.chain ++ [block] })

/-- `Blockchain.__init__` (lines 27-33): empty pool, empty chain, empty node
set, then the genesis block via `create_block(0, '00')`. -/
def init (t : Nat) (node_id : String) : BState :=
  (create_block t 0 "00"
    { transactions := [], chain := [], nodes := ∅, node_id := node_id }).2

/-- `Blockchain.proof_of_work` (lines 89-95): search nonces from 0 upward
over the current pending pool and the hash of the last block, at the default
difficulty `MINING_DIFFICULTY`.  Returns `none` on an empty chain
(`self.chain[-1]` raises) or when the fuel runs out. -/
def proof_of_work (H : String → String) (fuel : Nat) (s : BState) :
    Option Nat :=
  match s.chain.getLast? with
  | none => none
  | some last_block =>
    pow_search H s.transactions (hash H last_block) MINING_DIFFICULTY fuel 0

/-! ### Signature verification and transaction submission -/

/-- Value of one hex digit, or `none` for a non-hex character. -/
def hexDigitVal (c : Char) : Option Nat :=
  if '0' ≤ c ∧ c ≤ '9' then some (c.toNat - '0'.toNat)
  else if 'a' ≤ c ∧ c ≤ 'f' then some (c.toNat - 'a'.toNat + 10)
  else if 'A' ≤ c ∧ c ≤ 'F' then some (c.toNat - 'A'.toNat + 10)
  else none

/-- `binascii.unhexlify` on a character list: pairs of hex digits to bytes;
fails (`binascii.Error`, a `ValueError`) on odd length or a non-hex digit. -/
def unhexlifyAux : List Char → Option (List Nat)
  | [] => some []
  | [_] => none
  | c1 :: c2 :: rest =>
    match hexDigitVal c1, hexDigitVal c2, unhexlifyAux rest with
    | some hi, some lo, some bs => some ((16 * hi + lo) :: bs)
    | _, _, _ => none

/-- `binascii.unhexlify` (line 6 import; used in lines 53 and 57). -/
def unhexlify (s : String) : Option (List Nat) :=
  unhexlifyAux s.data

/-- The external RSA/PKCS#1 v1.5 primitives: `importKeyOk kb` tells whether
`RSA.importKey` succeeds on key bytes `kb` (it raises `ValueError`
otherwise); `verifyOk kb msg sig` tells whether `PKCS1_v1_5.new(key).verify`
accepts signature bytes `sig` for the SHA digest of `msg` under that key (it
raises `ValueError` otherwise). -/
structure RSA where
  importKeyOk : List Nat → Bool
  verifyOk : List Nat → String → List Nat → Bool

/-- `Blockchain.verify_transaction_signature` (lines 51-60).  The `try`
block covers only `unhexlify(signature)` and `verifier.verify` (both raise
`ValueError` on failure, which is caught and returns `False`);
`RSA.importKey(unhexlify(sender_public_key))` runs before the `try`, so its
failures propagate. -/
def verify_transaction_signature (R : RSA) (sender_public_key : String)
    (signature : String) (transaction : Transaction) : Except PyError Bool :=
  match unhexlify sender_public_key with
  | none => .error .valueError
  | some keyBytes =>
    if R.importKeyOk keyBytes then
      match unhexlify signature with
      | none => .ok false
      | some sigBytes =>
        if R.verifyOk keyBytes transaction.pyRepr sigBytes then .ok true
        else .ok false
    else .error .valueError

/-- The two possible returns of `submit_transaction`: `len(self.chain) + 1`
on acceptance, the Python `False` on rejection. -/
inductive SubmitResult where
  | blockNumber (n : Nat)
  | rejected
  deriving DecidableEq, Repr

/-- `Blockchain.submit_transaction` (lines 62-79). -/
def submit_transaction (R : RSA) (sender_public_key : String)
    (recipient_public_key : String) (signature : String) (amount : Amount)
    (s : BState) : Except PyError (SubmitResult × BState) :=
  let transaction : Transaction :=
    { sender_public_key := sender_public_key
      recipient_public_key := recipient_public_key
      amount := amount }
  if sender_public_key = MINING_SENDER then
    .ok (.blockNumber (s.chain.length + 1),
      { s with transactions := s.transactions ++ [transaction] })
  else
    match verify_transaction_signature R sender_public_key signature
        transaction with
    | .error e => .error e
    | .ok true =>
      .ok (.blockNumber (s.chain.length + 1),
        { s with transactions := s.transactions ++ [transaction] })
    | .ok false => .ok (.rejected, s)

/-! ### Chain validation -/

/-- The rebuild of a transaction record in `valid_chain` (lines 130-134):
an `OrderedDict` over exactly the keys `sender_public_key`,
`recipient_public_key`, `amount` in that order. -/
def reconstructTx (t : Transaction) : Transaction :=
  { sender_public_key := t.sender_public_key
    recipient_public_key := t.recipient_public_key
    amount := t.amount }

/-- The `while` loop of `Blockchain.valid_chain` (lines 125-141), carrying
`last_block`: each block must point to the hash of the previous one, and its
transactions minus the trailing reward entry (`[:-1]`) must satisfy the
proof-of-work predicate at `MINING_DIFFICULTY`. -/
def validFrom (H : String → String) : Block → List Block → Bool
  | _, [] => true
  | last_block, block :: rest =>
    if block.previous_hash ≠ hash H last_block then false
    else
      let transactions := (block.transactions.dropLast).map reconstructTx
      if ¬ valid_proof H transactions block.previous_hash block.nonce
          MINING_DIFFICULTY then false
      else validFrom H block rest

/-- `Blockchain.valid_chain` (lines 122-142).  `given_chain[0]` raises
`IndexError` on an empty candidate, modelled as `none`. -/
def valid_chain (H : String → String) : List Block → Option Bool
  | [] => none
  | b :: rest => some (validFrom H b rest)

/-! ### Peer registration (`urlparse` fragment) -/

/-- Characters allowed in a URL scheme (`urllib.parse.scheme_chars`). -/
def schemeChar (c : Char) : Bool :=
  c.isAlpha || c.isDigit || c = '+' || c = '-' || c = '.'

/-- The fields of `urllib.parse.urlparse` that `register_node` reads. -/
structure ParseResult where
  scheme : String
  netloc : String
  path : String
  deriving DecidableEq, Repr

/-- `urllib.parse.urlsplit` (CPython 3.11), restricted to the fields
`register_node` uses: split a leading `scheme:` when the text before the
first colon starts with an ASCII letter and consists of scheme characters;
then read a `//netloc` delimited by `/`, `?` or `#`; the remainder, cut at
the first `#` and then at the first `?`, is the path.  (The `params` split
of `urlparse` and the IPv6 bracket check are omitted; neither affects
`netloc`, and no input considered here contains `;` or brackets.) -/
def urlparse (url : String) : ParseResult :=
  let cs := url.data
  let afterScheme :=
    match cs.findIdx? (fun c => c = ':') with
    | none => (([] : List Char), cs)
    | some i =>
      if 0 < i ∧ (cs.take i).all schemeChar ∧
          (cs.head?.elim false Char.isAlpha) then
        ((cs.take i).map Char.toLower, cs.drop (i + 1))
      else (([] : List Char), cs)
  let scheme := afterScheme.1
  let rest := afterScheme.2
  let afterNetloc :=
    match rest with
    | '/' :: '/' :: more =>
      (more.takeWhile (fun c => ¬ (c = '/' ∨ c = '?' ∨ c = '#')),
       more.dropWhile (fun c => ¬ (c = '/' ∨ c = '?' ∨ c = '#')))
    | _ => (([] : List Char), rest)
  let path :=
    ((afterNetloc.2.takeWhile (fun c => c ≠ '#')).takeWhile
      (fun c => c ≠ '?'))
  { scheme := String.mk scheme
    netloc := String.mk afterNetloc.1
    path := String.mk path }

/-- `Blockchain.register_node` (lines 144-151): add `netloc` when nonempty,
else the `path` when nonempty, else raise `ValueError`. -/
def register_node (node_url : String) (s : BState) : Except PyError BState :=
  let parsed_url := urlparse node_url
  if parsed_url.netloc ≠ "" then
    .ok { s with nodes := insert parsed_url.netloc s.nodes }
  else if parsed_url.path ≠ "" then
    .ok { s with nodes := insert parsed_url.path s.nodes }
  else
    .error .valueError

/-! ### Mining flow -/

/-- The `/mine` route handler core (lines 203-213): run `proof_of_work`,
submit the reward transaction from `MINING_SENDER` to `node_id` with empty
signature and amount `MINING_REWARD`, then `create_block` with the hash of
the last block.  `none` when the chain is empty or the fuel runs out. -/
def mine (H : String → String) (R : RSA) (fuel : Nat) (t : Nat)
    (s : BState) : Option (Block × BState) :=
  match proof_of_work H fuel s with
  | none => none
  | some nonce =>
    match submit_transaction R MINING_SENDER s.node_id "" (.int MINING_REWARD)
        s with
    | .error _ => none
    | .ok (_, s1) =>
      match s1.chain.getLast? with
      | none => none
      | some last_block =>
        some (create_block t nonce (hash H last_block) s1)

/-! ### Consensus resolution -/

/-- Outcome of `requests.get(f'http://{node}/chain')` for one node:
a transport-level exception, or a response with a status code and (when the
body is read) the JSON fields `length` and `chain`. -/
inductive FetchResult where
  | failure
  | response (status : Nat) (length : Nat) (chain : List Block)

/-- The value bound to the Python variable `max_length` in
`resolve_conflicts`: initially the int `len(self.chain)`, but line 115
(`max_length = external_chain`) can rebind it to a chain (a list). -/
inductive MaxLen where
  | int (n : Nat)
  | list (c : List Block)

/-- The `for node in neighbours` loop of `resolve_conflicts` (lines
108-116), threading `max_length` and `new_chain`.  A transport failure
raises out of the loop (there is no `try` around `requests.get`); comparing
`external_length > max_length` when `max_length` holds a list raises
`TypeError`; `valid_chain` of an empty candidate raises `IndexError`. -/
def resolve_loop (H : String → String) (fetch : String → FetchResult) :
    List String → MaxLen → Option (List Block) →
    Except PyError (Option (List Block))
  | [], _, new_chain => .ok new_chain
  | node :: rest, max_length, new_chain =>
    match fetch node with
    | .failure => .error .requestsException
    | .response status external_length external_chain =>
      if status = 200 then
        match max_length with
        | .list _ => .error .typeError
        | .int m =>
          if external_length > m then
            match valid_chain H external_chain with
            | none => .error .indexError
            | some true =>
              resolve_loop H fetch rest (.list external_chain)
                (some external_chain)
            | some false => resolve_loop H fetch rest (.int m) new_chain
          else resolve_loop H fetch rest (.int m) new_chain
      else resolve_loop H fetch rest max_length new_chain

/-- `Blockchain.resolve_conflicts` (lines 104-120): iterate over the nodes
(in the given set-iteration `order`), then replace the local chain when
`new_chain` is truthy (a nonempty list). -/
def resolve_conflicts (H : String → String) (fetch : String → FetchResult)
    (order : List String) (s : BState) : Except PyError (Bool × BState) :=
  match resolve_loop H fetch order (.int s.chain.length) none with
  | .error e => .error e
  | .ok (some c) =>
    if c ≠ [] then .ok (true, { s with chain := c }) else .ok (false, s)
  | .ok none => .ok (false, s)

/-! ### Concrete instances used to exercise the definitions -/

/-- A degenerate SHA-256 stand-in mapping every input to `"00"`; with it
every proof attempt at difficulty 2 succeeds at once. -/
def H0 : String → String := fun _ => "00"

/-- An RSA oracle on which key import and verification always succeed. -/
def R0 : RSA := { importKeyOk := fun _ => true, verifyOk := fun _ _ _ => true }

/-- An RSA oracle on which key import succeeds but every verification
fails. -/
def Rfalse : RSA := { importKeyOk := fun _ => true, verifyOk := fun _ _ _ => false }

/-- A freshly constructed node state. -/
def s0 : BState := init 0 "the_node"

/-- The reward transaction appended by the `mine` flow (lines 207-210). -/
def rewardTx (node_id : String) : Transaction :=
  { sender_public_key := MINING_SENDER
    recipient_public_key := node_id
    amount := .int MINING_REWARD }

/-! ### Helper lemmas -/

theorem reconstructTx_id (t : Transaction) : reconstructTx t = t := rfl

theorem validFrom_cons (H : String → String) (last_block blk : Block)
    (rest : List Block) :
    validFrom H last_block (blk :: rest) = true ↔
      blk.previous_hash = hash H last_block ∧
      valid_proof H (blk.transactions.dropLast.map reconstructTx)
        blk.previous_hash blk.nonce MINING_DIFFICULTY = true ∧
      validFrom H blk rest = true := by
  by_cases h1 : blk.previous_hash = hash H last_block <;>
    by_cases h2 : valid_proof H (blk.transactions.dropLast.map reconstructTx)
      blk.previous_hash blk.nonce MINING_DIFFICULTY = true <;>
    simp [validFrom, h1, h2]

theorem validFrom_append (H : String → String) (rest : List Block) :
    ∀ (first lb b : Block),
      validFrom H first rest = true →
      (first :: rest).getLast? = some lb →
      b.previous_hash = hash H lb →
      valid_proof H (b.transactions.dropLast.map reconstructTx)
        b.previous_hash b.nonce MINING_DIFFICULTY = true →
      validFrom H first (rest ++ [b]) = true := by
  induction rest with
  | nil =>
    intro first lb b _ hlast hph hvp
    have hfb : lb = first := by simpa using hlast.symm
    subst hfb
    exact (validFrom_cons H lb b []).2 ⟨hph, hvp, rfl⟩
  | cons blk rest ih =>
    intro first lb b hvf hlast hph hvp
    obtain ⟨h1, h2, h3⟩ := (validFrom_cons H first blk rest).1 hvf
    have hlast' : (blk :: rest).getLast? = some lb := by
      simpa [List.getLast?_cons_cons] using hlast
    exact (validFrom_cons H first blk (rest ++ [b])).2
      ⟨h1, h2, ih blk lb b h3 hlast' hph hvp⟩

theorem submit_transaction_chain_eq (R : RSA) (sender recipient signature :
    String) (amount : Amount) (s : BState) (r : SubmitResult) (s' : BState)
    (h : submit_transaction R sender recipient signature amount s
      = .ok (r, s')) :
    s'.chain = s.chain ∧ s'.node_id = s.node_id := by
  unfold submit_transaction at h
  by_cases hs : sender = MINING_SENDER
  · simp [hs] at h
    obtain ⟨-, h2⟩ := h
    rw [← h2]
    exact ⟨rfl, rfl⟩
  · simp [hs] at h
    cases hv : verify_transaction_signature R sender signature
        { sender_public_key := sender, recipient_public_key := recipient,
          amount := amount } with
    | error e => rw [hv] at h; simp at h
    | ok b =>
      rw [hv] at h
      cases b with
      | true =>
        simp at h
        obtain ⟨-, h2⟩ := h
        rw [← h2]
        exact ⟨rfl, rfl⟩
      | false =>
        simp at h
        obtain ⟨-, h2⟩ := h
        rw [← h2]
        exact ⟨rfl, rfl⟩

theorem mine_eq (H : String → String) (R : RSA) (fuel t : Nat) (s : BState)
    (last_block : Block) (nonce : Nat)
    (hlb : s.chain.getLast? = some last_block)
    (hn : pow_search H s.transactions (hash H last_block) MINING_DIFFICULTY
      fuel 0 = some nonce) :
    mine H R fuel t s = some
      ({ block_number := s.chain.length + 1, timestamp := t,
         transactions := s.transactions ++ [rewardTx s.node_id],
         nonce := nonce, previous_hash := hash H last_block },
       { s with transactions := [],
                chain := s.chain ++
                  [{ block_number := s.chain.length + 1, timestamp := t,
                     transactions := s.transactions ++ [rewardTx s.node_id],
                     nonce := nonce,
                     previous_hash := hash H last_block }] }) := by
  simp [mine, proof_of_work, hlb, hn, submit_transaction, create_block,
    rewardTx]

theorem mine_none (H : String → String) (R : RSA) (fuel t : Nat)
    (s : BState) (last_block : Block)
    (hlb : s.chain.getLast? = some last_block)
    (hn : pow_search H s.transactions (hash H last_block) MINING_DIFFICULTY
      fuel 0 = none) :
    mine H R fuel t s = none := by
  simp [mine, proof_of_work, hlb, hn]

theorem mine_inv (H : String → String) (R : RSA) (fuel t : Nat) (s : BState)
    (b : Block) (s' : BState) (h : mine H R fuel t s = some (b, s')) :
    ∃ last_block nonce,
      s.chain.getLast? = some last_block ∧
      pow_search H s.transactions (hash H last_block) MINING_DIFFICULTY
        fuel 0 = some nonce ∧
      b = { block_number := s.chain.length + 1, timestamp := t,
            transactions := s.transactions ++ [rewardTx s.node_id],
            nonce := nonce, previous_hash := hash H last_block } ∧
      s' = { s with transactions := [], chain := s.chain ++ [b] } := by
  cases hlb : s.chain.getLast? with
  | none =>
    have hnone : mine H R fuel t s = none := by
      simp [mine, proof_of_work, hlb]
    rw [hnone] at h
    exact absurd h (by simp)
  | some last_block =>
    cases hn : pow_search H s.transactions (hash H last_block)
        MINING_DIFFICULTY fuel 0 with
    | none =>
      rw [mine_none H R fuel t s last_block hlb hn] at h
      exact absurd h (by simp)
    | some nonce =>
      rw [mine_eq H R fuel t s last_block nonce hlb hn] at h
      simp only [Option.some.injEq, Prod.mk.injEq] at h
      refine ⟨last_block, nonce, rfl, hn, h.1.symm, ?_⟩
      rw [← h.2, h.1]

theorem pow_search_sound (H : String → String) (txs : List Transaction)
    (lh : String) (d : Nat) :
    ∀ fuel start n, pow_search H txs lh d fuel start = some n →
      start ≤ n ∧ valid_proof H txs lh n d = true ∧
      ∀ m, start ≤ m → m < n → valid_proof H txs lh m d = false := by
  intro fuel
  induction fuel with
  | zero => intro start n h; simp [pow_search] at h
  | succ f ih =>
    intro start n h
    by_cases hv : valid_proof H txs lh start d = true
    · rw [pow_search, if_pos hv] at h
      obtain rfl : start = n := by simpa using h
      exact ⟨le_refl _, hv, fun m h1 h2 => absurd (lt_of_le_of_lt h1 h2)
        (lt_irrefl _)⟩
    · rw [pow_search, if_neg hv] at h
      obtain ⟨h1, h2, h3⟩ := ih (start + 1) n h
      refine ⟨by omega, h2, fun m hm1 hm2 => ?_⟩
      rcases eq_or_lt_of_le hm1 with heq | hlt
      · rw [← heq]; exact Bool.eq_false_iff.2 hv
      · exact h3 m (by omega) hm2

theorem pow_search_complete (H : String → String) (txs : List Transaction)
    (lh : String) (d : Nat) :
    ∀ fuel start k, start ≤ k → k < start + fuel →
      valid_proof H txs lh k d = true →
      ∃ n, pow_search H txs lh d fuel start = some n := by
  intro fuel
  induction fuel with
  | zero => intro start k h1 h2 _; omega
  | succ f ih =>
    intro start k h1 h2 hv
    by_cases hs : valid_proof H txs lh start d = true
    · exact ⟨start, by rw [pow_search, if_pos hs]⟩
    · have hne : start ≠ k := fun e => hs (e ▸ hv)
      obtain ⟨n, hn⟩ := ih (start + 1) k (by omega) (by omega) hv
      exact ⟨n, by rw [pow_search, if_neg hs]; exact hn⟩

theorem map_reconstructTx (l : List Transaction) :
    l.map reconstructTx = l := by
  induction l with
  | nil => rfl
  | cons t ts ih => simp [reconstructTx_id, ih]

/-- States reachable purely by the local flow: construction (`__init__`),
transaction submission, and the `mine` flow. -/
inductive Reaches (H : String → String) (R : RSA) : BState → Prop
  | boot (t : Nat) (node_id : String) : Reaches H R (init t node_id)
  | submitStep (s : BState) (sender recipient signature : String)
      (amount : Amount) (r : SubmitResult) (s' : BState) :
      Reaches H R s →
      submit_transaction R sender recipient signature amount s
        = .ok (r, s') →
      Reaches H R s'
  | mineStep (s : BState) (fuel t : Nat) (b : Block) (s' : BState) :
      Reaches H R s → mine H R fuel t s = some (b, s') → Reaches H R s'

/-- C1: every chain built purely by the local mining flow — `proof_of_work`
over the pending pool, then appending the reward transaction, then
`create_block` with the hash of the previous block — passes the node's own
`valid_chain` check. -/
theorem mined_chain_passes_valid_chain (H : String → String) (R : RSA)
    (s : BState) (h : Reaches H R s) : valid_chain H s.chain = some true := by
  induction h with
  | boot t node_id => rfl
  | submitStep s sender recipient signature amount r s' _ hsub ih =>
    rw [(submit_transaction_chain_eq R sender recipient signature amount
      s r s' hsub).1]
    exact ih
  | mineStep s fuel t b s' _ hm ih =>
    obtain ⟨last_block, nonce, hlb, hn, hb, hs'⟩ :=
      mine_inv H R fuel t s b s' hm
    cases hc : s.chain with
    | nil => rw [hc] at ih; exact absurd ih (by simp [valid_chain])
    | cons first rest =>
      have hvf : validFrom H first rest = true := by
        rw [hc] at ih
        simpa [valid_chain] using ih
      have hlast : (first :: rest).getLast? = some last_block := by
        rw [← hc]; exact hlb
      have hph : b.previous_hash = hash H last_block := by rw [hb]
      have hbnonce : b.nonce = nonce := by rw [hb]
      have hdrop : b.transactions.dropLast.map reconstructTx
          = s.transactions := by
        rw [hb]
        show ((s.transactions ++ [rewardTx s.node_id]).dropLast).map
          reconstructTx = s.transactions
        rw [List.dropLast_concat, map_reconstructTx]
      have hvp : valid_proof H (b.transactions.dropLast.map reconstructTx)
          b.previous_hash b.nonce MINING_DIFFICULTY = true := by
        rw [hdrop, hph, hbnonce]
        exact (pow_search_sound H s.transactions (hash H last_block)
          MINING_DIFFICULTY fuel 0 nonce hn).2.1
      have happ := validFrom_append H rest first last_block b hvf hlast
        hph hvp
      have hchain : s'.chain = (first :: rest) ++ [b] := by rw [hs', hc]
      rw [hchain, List.cons_append]
      show some (validFrom H first (rest ++ [b])) = some true
      rw [happ]

/-- Witness for C1: the state obtained from a fresh node by one `mine` step
(under the degenerate digest `H0`, the search succeeds at nonce 0) has a
chain accepted by `valid_chain`. -/
theorem mined_chain_passes_valid_chain_witness :
    valid_chain H0 ((⟨[],
        [⟨1, 0, [], 0, "00"⟩, ⟨2, 3, [rewardTx "the_node"], 0, "00"⟩],
        ∅, "the_node"⟩ : BState)).chain = some true :=
  mined_chain_passes_valid_chain H0 R0 _
    (Reaches.mineStep (init 0 "the_node") 1 3
      ⟨2, 3, [rewardTx "the_node"], 0, "00"⟩
      ⟨[], [⟨1, 0, [], 0, "00"⟩, ⟨2, 3, [rewardTx "the_node"], 0, "00"⟩],
        ∅, "the_node"⟩
      (Reaches.boot 0 "the_node") (by decide))

/-- C5: whenever a solution exists, the ascending nonce search of
`proof_of_work` returns the least nonce satisfying `valid_proof`: any
returned nonce is valid and every smaller nonce is invalid, and a valid
nonce `k` guarantees the search (given fuel `k + 1`) returns some nonce
`≤ k`. -/
theorem pow_search_returns_least_nonce (H : String → String)
    (txs : List Transaction) (lh : String) (d : Nat) :
    (∀ fuel n, pow_search H txs lh d fuel 0 = some n →
      valid_proof H txs lh n d = true ∧
      ∀ m, m < n → valid_proof H txs lh m d = false) ∧
    (∀ k, valid_proof H txs lh k d = true →
      ∃ n, n ≤ k ∧ pow_search H txs lh d (k + 1) 0 = some n) := by
  constructor
  · intro fuel n h
    obtain ⟨-, h2, h3⟩ := pow_search_sound H txs lh d fuel 0 n h
    exact ⟨h2, fun m hm => h3 m (Nat.zero_le m) hm⟩
  · intro k hk
    obtain ⟨n, hn⟩ := pow_search_complete H txs lh d (k + 1) 0 k
      (Nat.zero_le k) (by omega) hk
    obtain ⟨-, -, h3⟩ := pow_search_sound H txs lh d (k + 1) 0 n hn
    refine ⟨n, ?_, hn⟩
    by_contra hlt
    exact absurd hk (by simpa using h3 k (Nat.zero_le k) (by omega))

/-- Witness for C5: under the degenerate digest `H0`, the search with fuel 1
returns nonce 0, which the theorem certifies as valid. -/
theorem pow_search_returns_least_nonce_witness :
    valid_proof H0 [] "x" 0 2 = true :=
  ((pow_search_returns_least_nonce H0 [] "x" 2).1 1 0 (by decide)).1

/-- C6: `submit_transaction` with the reserved sender `MINING_SENDER`
accepts unconditionally — the result does not depend on the RSA oracle —
appends the transaction to the pending pool and returns the chain length
plus one; for any other sender, the result is dictated by
`verify_transaction_signature`: append and return the block number on
approval, reject otherwise. -/
theorem submit_transaction_reward_bypass (R : RSA)
    (recipient signature : String) (amount : Amount) (s : BState) :
    submit_transaction R MINING_SENDER recipient signature amount s
      = .ok (.blockNumber (s.chain.length + 1),
          { s with transactions := s.transactions ++
              [⟨MINING_SENDER, recipient, amount⟩] }) ∧
    ∀ sender, sender ≠ MINING_SENDER →
      submit_transaction R sender recipient signature amount s
        = (verify_transaction_signature R sender signature
            ⟨sender, recipient, amount⟩).map
            (fun ok =>
              if ok then
                (.blockNumber (s.chain.length + 1),
                 { s with transactions := s.transactions ++
                     [⟨sender, recipient, amount⟩] })
              else (.rejected, s)) := by
  constructor
  · simp [submit_transaction]
  · intro sender hs
    simp only [submit_transaction, if_neg hs]
    cases verify_transaction_signature R sender signature
        ⟨sender, recipient, amount⟩ with
    | error e => rfl
    | ok b => cases b <;> rfl

/-- Witness for C6: concrete reward-sentinel acceptance, and a non-sentinel
sender whose (non-hex) key makes the verifier outcome decide the result. -/
theorem submit_transaction_reward_bypass_witness :
    submit_transaction R0 MINING_SENDER "r" "" (.int 1) s0
      = .ok (.blockNumber 2,
          { s0 with transactions := [⟨MINING_SENDER, "r", .int 1⟩] }) ∧
    submit_transaction R0 "alice" "r" "" (.int 1) s0
      = .error .valueError :=
  ⟨((submit_transaction_reward_bypass R0 "r" "" (.int 1) s0).1).trans
      (by decide),
   (((submit_transaction_reward_bypass R0 "r" "" (.int 1) s0).2 "alice"
      (by decide)).trans (by decide))⟩

/-- C7: a submission whose signature fails verification returns the
rejection outcome (a value distinct from every numeric block index) and
leaves the whole state — in particular the pending pool — unchanged, so the
rejected transaction is absent from the pending pool and from the next
mined block whenever it was absent before. -/
theorem submit_transaction_rejection_no_effect (R : RSA)
    (sender recipient signature : String) (amount : Amount) (s : BState)
    (hs : sender ≠ MINING_SENDER)
    (hv : verify_transaction_signature R sender signature
      ⟨sender, recipient, amount⟩ = .ok false) :
    submit_transaction R sender recipient signature amount s
      = .ok (.rejected, s) ∧
    (∀ n, (SubmitResult.rejected : SubmitResult) ≠ .blockNumber n) ∧
    ∀ (H : String → String) (R' : RSA) (fuel t : Nat) (b : Block)
      (s' : BState),
      mine H R' fuel t s = some (b, s') →
      (⟨sender, recipient, amount⟩ : Transaction) ∉ s.transactions →
      (⟨sender, recipient, amount⟩ : Transaction) ∉ b.transactions ∧
      (⟨sender, recipient, amount⟩ : Transaction) ∉ s'.transactions := by
  refine ⟨?_, fun n h => SubmitResult.noConfusion h, ?_⟩
  · simp only [submit_transaction, if_neg hs, hv]
  · intro H R' fuel t b s' hm hnotin
    obtain ⟨last_block, nonce, -, -, hb, hs'⟩ :=
      mine_inv H R' fuel t s b s' hm
    constructor
    · rw [hb]
      intro hmem
      rcases List.mem_append.1 hmem with h1 | h1
      · exact hnotin h1
      · have : (⟨sender, recipient, amount⟩ : Transaction)
            = rewardTx s.node_id := by simpa using h1
        exact hs (congrArg Transaction.sender_public_key this)
    · rw [hs']
      simp

/-- Witness for C7: a rejecting oracle on a well-formed hex key leaves the
fresh state untouched. -/
theorem submit_transaction_rejection_no_effect_witness :
    submit_transaction Rfalse "00" "r" "00" (.str "5") s0
      = .ok (.rejected, s0) :=
  (submit_transaction_rejection_no_effect Rfalse "00" "r" "00" (.str "5")
    s0 (by decide) (by decide)).1

/-- C8: `create_block` snapshots the pending pool into the new block,
numbers it with the previous chain length plus one, stores the given nonce
and previous hash, clears the pool, and appends the block after all the
previously appended blocks, which are unchanged. -/
theorem create_block_spec (t nonce : Nat) (previous_hash : String)
    (s : BState) :
    (create_block t nonce previous_hash s).1.transactions = s.transactions ∧
    (create_block t nonce previous_hash s).1.block_number
      = s.chain.length + 1 ∧
    (create_block t nonce previous_hash s).1.nonce = nonce ∧
    (create_block t nonce previous_hash s).1.previous_hash
      = previous_hash ∧
    (create_block t nonce previous_hash s).2.transactions = [] ∧
    (create_block t nonce previous_hash s).2.chain
      = s.chain ++ [(create_block t nonce previous_hash s).1] :=
  ⟨rfl, rfl, rfl, rfl, rfl, rfl⟩

/-- C10: a one-block candidate chain is accepted by `valid_chain` whatever
the content of that (genesis) block: its nonce, previous hash and
transactions are never themselves validated. -/
theorem valid_chain_singleton (H : String → String) (b : Block) :
    valid_chain H [b] = some true := rfl

/-- C4 counterexample: on a malformed (non-hex) sender public key,
`verify_transaction_signature` does not return a boolean — the
`binascii.Error` (a `ValueError`) from `unhexlify` is raised outside the
`try` block and propagates to the caller. -/
theorem verify_transaction_signature_malformed_key_raises :
    verify_transaction_signature R0 "zz" "00" ⟨"zz", "r", .int 1⟩
      = .error .valueError := by decide

/-- C4 (amended): the `try` block protects only signature decoding and
verification — a malformed signature or a failed verification yields
`false` — while a sender public key that fails hex decoding or key import
raises a `ValueError` that propagates to the caller. -/
theorem verify_transaction_signature_fail_behavior (R : RSA)
    (sender signature : String) (t : Transaction) :
    (unhexlify sender = none →
      verify_transaction_signature R sender signature t
        = .error .valueError) ∧
    (∀ kb, unhexlify sender = some kb → R.importKeyOk kb = false →
      verify_transaction_signature R sender signature t
        = .error .valueError) ∧
    (∀ kb, unhexlify sender = some kb → R.importKeyOk kb = true →
      verify_transaction_signature R sender signature t
        = .ok (match unhexlify signature with
               | none => false
               | some sb => R.verifyOk kb t.pyRepr sb)) := by
  refine ⟨fun h => ?_, fun kb h hk => ?_, fun kb h hk => ?_⟩
  · simp [verify_transaction_signature, h]
  · simp [verify_transaction_signature, h, hk]
  · simp only [verify_transaction_signature, h, hk, if_true]
    cases unhexlify signature with
    | none => rfl
    | some sb => cases hv : R.verifyOk kb t.pyRepr sb <;> simp [hv]

/-- Witness for C4 (amended): well-formed hex key, malformed (non-hex)
signature: the failure is swallowed and the verifier returns `false`. -/
theorem verify_transaction_signature_fail_behavior_witness :
    verify_transaction_signature R0 "00" "zz" ⟨"00", "r", .int 1⟩
      = .ok false :=
  ((verify_transaction_signature_fail_behavior R0 "00" "zz"
      ⟨"00", "r", .int 1⟩).2.2 [0] (by decide) (by decide)).trans (by decide)

/-- C9 counterexample: `localhost:5000` and `http://localhost:5000` denote
the same host:port, yet registering both leaves two entries in the peer
set: `urlparse` treats `localhost` in the scheme-less form as a URL scheme,
so that form is stored as its path remainder `5000`, while the
scheme-prefixed form is stored as its netloc `localhost:5000`. -/
theorem register_node_equivalent_forms_two_entries :
    register_node "localhost:5000" s0 = .ok { s0 with nodes := {"5000"} } ∧
    register_node "http://localhost:5000" { s0 with nodes := {"5000"} }
      = .ok { s0 with nodes := {"localhost:5000", "5000"} } ∧
    ({"localhost:5000", "5000"} : Finset String).card = 2 :=
  ⟨by decide, by decide, by decide⟩

/-- C9 (amended): registering the same address string twice is idempotent
(the peer set is a set), and any two forms parsing to the same nonempty
netloc deduplicate to one entry; but textually different forms denoting the
same host:port need not coincide (a scheme-less `host:port` with an
alphabetic host is stored as its path remainder, not its netloc). -/
theorem register_node_dedup (u v : String) (s s1 : BState)
    (h : register_node u s = .ok s1) :
    register_node u s1 = .ok s1 ∧
    ((urlparse v).netloc = (urlparse u).netloc →
      (urlparse u).netloc ≠ "" → register_node v s1 = .ok s1) := by
  by_cases hn : (urlparse u).netloc = ""
  · by_cases hp : (urlparse u).path = ""
    · have h1 : register_node u s = .error .valueError := by
        simp [register_node, hn, hp]
      rw [h1] at h
      exact absurd h (by simp)
    · have h1 : register_node u s
          = .ok { s with nodes := insert (urlparse u).path s.nodes } := by
        simp [register_node, hn, hp]
      rw [h1] at h
      injection h with h
      subst h
      refine ⟨?_, fun _ hnn => absurd hn hnn⟩
      simp [register_node, hn, hp, Finset.insert_idem]
  · have h1 : register_node u s
        = .ok { s with nodes := insert (urlparse u).netloc s.nodes } := by
      simp [register_node, hn]
    rw [h1] at h
    injection h with h
    subst h
    constructor
    · simp [register_node, hn, Finset.insert_idem]
    · intro hv hnn
      simp [register_node, hv, hn, Finset.insert_idem]

/-- Witness for C9 (amended): registering `http://h:1` twice, and then the
equal-netloc form `https://h:1`, leaves the single entry `h:1`. -/
theorem register_node_dedup_witness :
    register_node "http://h:1" { s0 with nodes := {"h:1"} }
      = .ok { s0 with nodes := {"h:1"} } ∧
    register_node "https://h:1" { s0 with nodes := {"h:1"} }
      = .ok { s0 with nodes := {"h:1"} } :=
  ⟨(register_node_dedup "http://h:1" "https://h:1" s0
      { s0 with nodes := {"h:1"} } (by decide)).1,
   (register_node_dedup "http://h:1" "https://h:1" s0
      { s0 with nodes := {"h:1"} } (by decide)).2 (by decide) (by decide)⟩

/-- C3 counterexample: a transport-level failure on a peer fetch is not
caught anywhere in `resolve_conflicts`, so resolution raises instead of
skipping the peer. -/
theorem resolve_conflicts_transport_failure_raises :
    resolve_conflicts H0 (fun _ => .failure) ["peer"] s0
      = .error .requestsException := rfl

/-- One loop step of `resolve_conflicts` on a non-200 response leaves the
running state untouched and continues with the remaining peers. -/
theorem resolve_loop_skip (H : String → String)
    (fetch : String → FetchResult) (node : String) (rest : List String)
    (max_length : MaxLen) (new_chain : Option (List Block))
    (status length : Nat) (chain : List Block)
    (hf : fetch node = .response status length chain) (hs : status ≠ 200) :
    resolve_loop H fetch (node :: rest) max_length new_chain
      = resolve_loop H fetch rest max_length new_chain := by
  simp [resolve_loop, hf, hs]

/-- C3 (amended): a peer answering with a non-2xx status is skipped and
resolution continues with the remaining peers unchanged; a transport-level
fetch failure, however, is not caught and propagates out of
`resolve_conflicts`. -/
theorem resolve_conflicts_skips_non_2xx (H : String → String)
    (fetch : String → FetchResult) (node : String) (rest : List String)
    (s : BState) (status length : Nat) (chain : List Block)
    (hf : fetch node = .response status length chain) (hs : status ≠ 200) :
    resolve_conflicts H fetch (node :: rest) s
      = resolve_conflicts H fetch rest s := by
  unfold resolve_conflicts
  rw [resolve_loop_skip H fetch node rest (.int s.chain.length) none
    status length chain hf hs]

/-- Witness for C3 (amended): a single peer answering 404 is skipped,
leaving resolution equal to resolution over no peers. -/
theorem resolve_conflicts_skips_non_2xx_witness :
    resolve_conflicts H0 (fun _ => FetchResult.response 404 5 []) ["p"] s0
      = resolve_conflicts H0 (fun _ => FetchResult.response 404 5 []) []
        s0 :=
  resolve_conflicts_skips_non_2xx H0 (fun _ => FetchResult.response 404 5 [])
    "p" [] s0 404 5 [] rfl (by decide)

/-- Peer responses exhibiting the `max_length = external_chain` slip of
line 115: `p1` offers a valid two-block chain, `p2` then answers 200 with
anything at all. -/
def fetchBug : String → FetchResult := fun node =>
  if node = "p1" then
    .response 200 2 [⟨1, 0, [], 0, "00"⟩, ⟨2, 0, [], 0, "00"⟩]
  else .response 200 1 []

/-- C2 (code bug): after a longer valid candidate is adopted, line 115
rebinds `max_length` to the chain object itself rather than its length, so
the very next 200-responding peer makes the comparison
`external_length > max_length` compare an int against a list and raise
`TypeError` — the running maximum is not the best candidate's length as the
spec describes.  With `p1` alone, adoption works and reports `replaced`;
adding `p2` makes resolution raise. -/
theorem resolve_conflicts_type_confusion :
    resolve_conflicts H0 fetchBug ["p1"] s0
      = .ok (true, { s0 with
          chain := [⟨1, 0, [], 0, "00"⟩, ⟨2, 0, [], 0, "00"⟩] }) ∧
    resolve_conflicts H0 fetchBug ["p1", "p2"] s0 = .error .typeError :=
  ⟨by decide, by decide⟩

end Blockchain
